import Mathlib

/-!
Verification of the campaign dispatch engine of the `something-amazing-backend`
repository (NestJS email-campaign service), as a shallow embedding in Lean 4.

The embedding covers:
- the personalization token substitution (`SesService.replaceTokens` /
  `ResendService.replaceTokens`, identical bodies),
- the analytics overview (`CampaignsService.getAnalytics`),
- the recipient resolver (`CampaignsService.getContactsFromLists` and
  `CampaignsService.countRecipientsFromLists`),
- the campaign send state machine (`CampaignsService.send`),
- both batch dispatchers (`SesService.sendCampaign`, `ResendService.sendCampaign`),
- the bulk contact import (`ContactsService.bulkImport`).

JavaScript strings are modelled as Lean `String`s; all operations on them are
defined structurally over `String.data` (lists of characters) so that every
definition is executable and kernel-reducible.  Numbers are `Nat` (counters)
and `ℚ` (derived rates; JS floating point division on the small counter values
involved is exact, and the divide-by-zero guards in the source are explicit
`if` checks, so `ℚ` is a faithful model of the guarded arithmetic).
-/

namespace SAB

/-! ## JavaScript string primitives -/

/-- The `{` character, written via its code point. -/
def openBr : Char := Char.ofNat 123

/-- The `$` character, written via its code point. -/
def dollar : Char := Char.ofNat 36

/-- The `&` character, written via its code point. -/
def amp : Char := Char.ofNat 38

/-- The backquote character, written via its code point. -/
def backquote : Char := Char.ofNat 96

/-- The single-quote character, written via its code point. -/
def singleQuote : Char := Char.ofNat 39

/-- ECMAScript `GetSubstitution` applied to the replacement string of a
`String.prototype.replace` call, specialized to a regex with zero capture
groups (every regex in `replaceTokens` is a literal token): `$$` emits `$`,
`$&` emits the matched text, a backquoted `$` emits the part of the original
string before the match, `$` followed by a single quote emits the part after
the match, and any other `$` sequence — including `$n` (no capture group to
refer to) and `$<` (no named groups) — is kept literally. -/
def expandRepl (matched before after : List Char) : List Char → List Char
  | [] => []
  | c :: rest =>
    if c = dollar then
      match rest with
      | [] => [c]
      | d :: rest' =>
        if d = dollar then dollar :: expandRepl matched before after rest'
        else if d = amp then matched ++ expandRepl matched before after rest'
        else if d = backquote then before ++ expandRepl matched before after rest'
        else if d = singleQuote then after ++ expandRepl matched before after rest'
        else c :: expandRepl matched before after (d :: rest')
    else c :: expandRepl matched before after rest

/-- Scanner for global replacement, structurally recursive on a fuel argument
so that it evaluates by kernel reduction.  One unit of fuel is spent per
character position examined; a match consumes at least one character, so fuel
equal to the input length always suffices.  `orig` is the whole original
string and `pos` the current offset into it, from which `GetSubstitution`
takes the before/after context of each match. -/
def replaceAllGo (orig pat repl : List Char) : Nat → Nat → List Char → List Char
  | _, _, [] => []
  | 0, _, s => s
  | fuel + 1, pos, c :: rest =>
    if pat.isPrefixOf (c :: rest) then
      expandRepl pat (orig.take pos) ((c :: rest).drop pat.length) repl
        ++ replaceAllGo orig pat repl fuel (pos + pat.length) ((c :: rest).drop pat.length)
    else
      c :: replaceAllGo orig pat repl fuel (pos + 1) rest

/-- Global literal-pattern replacement on character lists: the model of the
JavaScript `content.replace(/pat/g, repl)` calls in `replaceTokens`, whose
regexes are literal strings without capture groups.  Each match is replaced
by the `GetSubstitution` expansion of the replacement string (`$&` etc. are
interpreted), and the scan resumes after the replaced text (the replacement
is not rescanned), exactly as JavaScript `replace` does.  The patterns
occurring in the source are the four nonempty literal tokens; the
empty-pattern guard only makes the scanner total. -/
def replaceAll (pat repl s : List Char) : List Char :=
  if pat.isEmpty then s else replaceAllGo s pat repl s.length 0 s

/-- String-level wrapper for `replaceAll`, in the argument order of the
JavaScript `content.replace(pattern, replacement)`. -/
def jsReplace (content pattern replacement : String) : String :=
  ⟨replaceAll pattern.data replacement.data content.data⟩

/-- Occurrence test for a pattern inside a character list (model of the
JavaScript `String.prototype.includes`). -/
def occursIn (pat : List Char) : List Char → Bool
  | [] => pat.isPrefixOf []
  | c :: t => pat.isPrefixOf (c :: t) || occursIn pat t

/-- Substring test on strings, via `occursIn`. -/
def strIncludes (s pat : String) : Bool := occursIn pat.data s.data

/-! ## Personalization engine (`replaceTokens`)

`SesService.replaceTokens` (src/src/common/email/ses.service.ts:63) and
`ResendService.replaceTokens` (the unnamed Resend service file) have identical
bodies; one definition embeds both. -/

/-- Contact data handed to the email dispatchers
(`ContactData` interface in both email services). -/
structure ContactData where
  id : String
  email : String
  firstName : Option String := none
  lastName : Option String := none
  company : Option String := none
deriving DecidableEq

/-- Model of the JavaScript `x || ''` applied to a nullable string field. -/
def orEmpty (o : Option String) : String :=
  match o with
  | none => ""
  | some s => s

/-- Embedding of `replaceTokens`: the four supported tokens are replaced
globally, in source order (firstName, lastName, email, company), each by the
contact field or the empty string when the field is absent. -/
def replaceTokens (content : String) (contact : ContactData) : String :=
  jsReplace
    (jsReplace
      (jsReplace
        (jsReplace content "\x7b\x7bfirstName\x7d\x7d" (orEmpty contact.firstName))
        "\x7b\x7blastName\x7d\x7d" (orEmpty contact.lastName))
      "\x7b\x7bemail\x7d\x7d" (if contact.email = "" then "" else contact.email))
    "\x7b\x7bcompany\x7d\x7d" (orEmpty contact.company)

/-! ## Result aggregator (`CampaignsService.getAnalytics`, overview part) -/

/-- The stored campaign counters the overview reads
(src/src/campaigns/campaigns.service.ts:534). `delivered` is modelled as
optional because the source guards it with `campaign.delivered || 0`. -/
structure CampaignCounters where
  recipients : Nat
  delivered : Option Nat
  opened : Nat
  clicked : Nat
  bounced : Nat
  complained : Nat

/-- The derived overview block returned by `getAnalytics`. -/
structure AnalyticsOverview where
  recipients : Nat
  delivered : Nat
  deliveryRate : ℚ
  opened : Nat
  openRate : ℚ
  clicked : Nat
  clickRate : ℚ
  bounced : Nat
  bounceRate : ℚ
  complained : Nat
  complaintRate : ℚ

/-- Embedding of the overview computation in `CampaignsService.getAnalytics`
(src/src/campaigns/campaigns.service.ts:537-550): each rate is
`(numerator / denominator) * 100` guarded by a positivity check on the
denominator, else `0`. -/
def getAnalyticsOverview (c : CampaignCounters) : AnalyticsOverview :=
  let delivered := c.delivered.getD 0
  { recipients := c.recipients
    delivered := delivered
    deliveryRate := if c.recipients > 0 then ((delivered : ℚ) / c.recipients) * 100 else 0
    opened := c.opened
    openRate := if delivered > 0 then ((c.opened : ℚ) / delivered) * 100 else 0
    clicked := c.clicked
    clickRate := if delivered > 0 then ((c.clicked : ℚ) / delivered) * 100 else 0
    bounced := c.bounced
    bounceRate := if c.recipients > 0 then ((c.bounced : ℚ) / c.recipients) * 100 else 0
    complained := c.complained
    complaintRate := if delivered > 0 then ((c.complained : ℚ) / delivered) * 100 else 0 }

/-! ## Lemmas about the replacement scanner -/

/-- A replacement string without `$` is spliced verbatim by
`GetSubstitution`. -/
theorem expandRepl_no_dollar (matched before after : List Char) :
    ∀ repl : List Char, (∀ c ∈ repl, c ≠ dollar) →
      expandRepl matched before after repl = repl := by
  intro repl
  induction repl with
  | nil => intro _; rfl
  | cons c rest ih =>
    intro h
    have hc : ¬(c = dollar) := h c (by simp)
    rw [expandRepl.eq_def]
    dsimp only
    rw [if_neg hc]
    exact congrArg (c :: ·) (ih fun x hx => h x (by simp [hx]))

/-- A pattern starting with `{` matches nowhere in a brace-free text, so the
scanner returns the text unchanged, whatever the fuel, position, or original
string. -/
theorem replaceAllGo_no_open (orig ps repl : List Char) (fuel : Nat) :
    ∀ (pos : Nat) (s : List Char), (∀ c ∈ s, c ≠ openBr) →
      replaceAllGo orig (openBr :: ps) repl fuel pos s = s := by
  induction fuel with
  | zero =>
    intro pos s _
    cases s <;> rfl
  | succ n ih =>
    intro pos s h
    cases s with
    | nil => rfl
    | cons c rest =>
      have hc : c ≠ openBr := h c (by simp)
      have hb : (openBr == c) = false := beq_eq_false_iff_ne.mpr (Ne.symm hc)
      have hpre : (openBr :: ps).isPrefixOf (c :: rest) = false := by
        show (openBr == c && ps.isPrefixOf rest) = false
        rw [hb]
        rfl
      simp only [replaceAllGo, hpre, Bool.false_eq_true, if_false]
      exact congrArg (c :: ·) (ih (pos + 1) rest fun x hx => h x (by simp [hx]))

/-- Version of `replaceAllGo_no_open` for `replaceAll`, phrased with a
`head?` hypothesis so it applies to patterns given as literal lists. -/
theorem replaceAll_no_open (pat repl s : List Char) (hpat : pat.head? = some openBr)
    (h : ∀ c ∈ s, c ≠ openBr) : replaceAll pat repl s = s := by
  cases pat with
  | nil => simp at hpat
  | cons p ps =>
    have hp : p = openBr := by simpa using hpat
    subst hp
    rw [replaceAll]
    simp only [List.isEmpty_cons, if_false]
    exact replaceAllGo_no_open s ps repl s.length 0 s h

/-! ## Claim C6 -/

/-- C6, counterexample: the claim asserts rendering never leaves a literal
`{{...}}` token unresolved, including unknown tokens.  But `replaceTokens`
only substitutes the four known tokens, so the unknown token `{{phone}}`
survives verbatim in the output. -/
theorem claim_C6_counterexample :
    replaceTokens "Hi \x7b\x7bphone\x7d\x7d" ⟨"c7", "x@y.z", some "Ann", some "Lee", some "Co"⟩
        = "Hi \x7b\x7bphone\x7d\x7d"
    ∧ strIncludes
        (replaceTokens "Hi \x7b\x7bphone\x7d\x7d" ⟨"c7", "x@y.z", some "Ann", some "Lee", some "Co"⟩)
        "\x7b\x7bphone\x7d\x7d" = true := by
  constructor <;> decide

/-- C6 (amended): `replaceTokens` substitutes each of the four supported
tokens with the corresponding contact field — subject to JavaScript's
replacement-string `$`-substitution, so a field free of `{` and `$` is
spliced verbatim, while for instance the field `"$&"` re-emits the matched
token; a missing (`null`) field substitutes the empty string
(`render "Hi {{firstName}}" {firstName := null}` gives `"Hi "`), and the
function is total (never throws); however an unrecognized `{{...}}` token is
left verbatim in the output rather than resolved to the empty string. -/
theorem claim_C6_personalization (f : String)
    (h : ∀ c ∈ f.data, c ≠ openBr ∧ c ≠ dollar) :
    replaceTokens "Hi \x7b\x7bfirstName\x7d\x7d" ⟨"c1", "e@x.co", some f, none, none⟩ = "Hi " ++ f
    ∧ replaceTokens "Hi \x7b\x7bfirstName\x7d\x7d" ⟨"c1", "e@x.co", none, none, none⟩ = "Hi "
    ∧ replaceTokens
        "\x7b\x7bfirstName\x7d\x7d|\x7b\x7blastName\x7d\x7d|\x7b\x7bemail\x7d\x7d|\x7b\x7bcompany\x7d\x7d"
        ⟨"c1", "ada@x.com", some "Ada", some "Lovelace", some "Acme"⟩ = "Ada|Lovelace|ada@x.com|Acme"
    ∧ replaceTokens "Hi \x7b\x7bunknownToken\x7d\x7d" ⟨"c1", "e@x.co", some "Ada", none, none⟩
        = "Hi \x7b\x7bunknownToken\x7d\x7d"
    ∧ replaceTokens "Hi \x7b\x7bfirstName\x7d\x7d" ⟨"c1", "e@x.co", some "$&", none, none⟩
        = "Hi \x7b\x7bfirstName\x7d\x7d" := by
  refine ⟨?_, by decide, by decide, by decide, by decide⟩
  apply String.ext
  simp only [replaceTokens, jsReplace, orEmpty]
  have e1 : replaceAll "\x7b\x7bfirstName\x7d\x7d".data f.data "Hi \x7b\x7bfirstName\x7d\x7d".data
      = 'H' :: 'i' :: ' ' :: f.data := by
    have h0 : replaceAll "\x7b\x7bfirstName\x7d\x7d".data f.data "Hi \x7b\x7bfirstName\x7d\x7d".data
        = 'H' :: 'i' :: ' '
            :: (expandRepl "\x7b\x7bfirstName\x7d\x7d".data ('H' :: 'i' :: ' ' :: []) [] f.data
              ++ []) := rfl
    rw [h0, expandRepl_no_dollar _ _ _ f.data (fun c hc => (h c hc).2)]
    simp
  have hs : ∀ c ∈ 'H' :: 'i' :: ' ' :: f.data, c ≠ openBr := by
    intro c hc
    simp only [List.mem_cons] at hc
    rcases hc with rfl | rfl | rfl | hc
    · decide
    · decide
    · decide
    · exact (h c hc).1
  rw [e1]
  rw [replaceAll_no_open _ _ _ (by decide) hs]
  rw [replaceAll_no_open _ _ _ (by decide) hs]
  rw [replaceAll_no_open _ _ _ (by decide) hs]
  rw [String.data_append]
  rfl

/-- Witness for `claim_C6_personalization`, at the concrete field `"Bob"`. -/
theorem claim_C6_witness :
    replaceTokens "Hi \x7b\x7bfirstName\x7d\x7d" ⟨"c1", "e@x.co", some "Bob", none, none⟩
      = "Hi " ++ "Bob" :=
  (claim_C6_personalization "Bob" (by decide)).1

/-! ## Claim C10 -/

/-- C10, counterexample: the claim states `deliveryRate = delivered/recipients`,
but `getAnalytics` returns percentages: with `recipients = 2, delivered = 1`
the overview reports `50`, not `1/2`. -/
theorem claim_C10_counterexample :
    (getAnalyticsOverview ⟨2, some 1, 0, 0, 0, 0⟩).deliveryRate ≠ (1 : ℚ) / 2
    ∧ (getAnalyticsOverview ⟨2, some 1, 0, 0, 0, 0⟩).deliveryRate = 50 := by
  constructor <;> norm_num [getAnalyticsOverview]

/-- C10 (amended): the overview rates are percentages —
`deliveryRate = delivered/recipients * 100`, `openRate = opened/delivered * 100`,
`clickRate = clicked/delivered * 100`, `bounceRate = bounced/recipients * 100`,
`complaintRate = complained/delivered * 100` — and every rate is exactly `0`
(not `NaN` or an error) whenever its denominator is zero. -/
theorem claim_C10_rates (c : CampaignCounters) :
    (c.recipients = 0 →
      (getAnalyticsOverview c).deliveryRate = 0 ∧ (getAnalyticsOverview c).bounceRate = 0)
    ∧ (c.delivered.getD 0 = 0 →
      (getAnalyticsOverview c).openRate = 0 ∧ (getAnalyticsOverview c).clickRate = 0
        ∧ (getAnalyticsOverview c).complaintRate = 0)
    ∧ (0 < c.recipients →
      (getAnalyticsOverview c).deliveryRate = (c.delivered.getD 0 : ℚ) / c.recipients * 100
        ∧ (getAnalyticsOverview c).bounceRate = (c.bounced : ℚ) / c.recipients * 100)
    ∧ (0 < c.delivered.getD 0 →
      (getAnalyticsOverview c).openRate = (c.opened : ℚ) / (c.delivered.getD 0) * 100
        ∧ (getAnalyticsOverview c).clickRate = (c.clicked : ℚ) / (c.delivered.getD 0) * 100
        ∧ (getAnalyticsOverview c).complaintRate = (c.complained : ℚ) / (c.delivered.getD 0) * 100) := by
  refine ⟨fun h => ?_, fun h => ?_, fun h => ?_, fun h => ?_⟩ <;>
    simp [getAnalyticsOverview, h]

/-- Witness for `claim_C10_rates`: both zero-denominator branches at one
campaign, and one positive branch at another. -/
theorem claim_C10_witness :
    (getAnalyticsOverview ⟨0, none, 3, 4, 5, 6⟩).deliveryRate = 0
    ∧ (getAnalyticsOverview ⟨0, none, 3, 4, 5, 6⟩).openRate = 0
    ∧ (getAnalyticsOverview ⟨4, some 2, 1, 0, 0, 0⟩).openRate = (1 : ℚ) / 2 * 100 := by
  refine ⟨((claim_C10_rates ⟨0, none, 3, 4, 5, 6⟩).1 rfl).1,
    ((claim_C10_rates ⟨0, none, 3, 4, 5, 6⟩).2.1 rfl).1, ?_⟩
  have h := ((claim_C10_rates ⟨4, some 2, 1, 0, 0, 0⟩).2.2.2 (by norm_num)).1
  norm_num at h ⊢
  exact h

/-! ## Recipient resolver
(`CampaignsService.getContactsFromLists`, src/src/campaigns/campaigns.service.ts:383,
and `CampaignsService.countRecipientsFromLists`, ibid:125) -/

/-- A `ContactListMember` join row as the resolver reads it: a list id and a
contact id.  The loaded `member.contact` relation is modelled by looking the
contact id up in the contact store. -/
structure Member where
  listId : String
  contactId : String
deriving DecidableEq

/-- One step of the `members.forEach` loop in `getContactsFromLists`: skip a
member whose joined contact is absent, otherwise insert the contact keyed by
`contact.id` unless that id was already seen (JS `Map` keeps insertion
order, so a new contact is appended). -/
def addMember (lookup : String → Option ContactData) (acc : List ContactData)
    (m : Member) : List ContactData :=
  match lookup m.contactId with
  | some ct => if acc.any (fun x => x.id = ct.id) then acc else acc ++ [ct]
  | none => acc

/-- Embedding of `getContactsFromLists`: empty `listIds` short-circuits to the
empty list; otherwise the members of any selected list are folded through the
dedup-by-contact-id map. -/
def getContactsFromLists (members : List Member) (lookup : String → Option ContactData)
    (listIds : List String) : List ContactData :=
  if listIds.length = 0 then []
  else
    ((members.filter (fun m => listIds.contains m.listId)).foldl (addMember lookup) [])

/-- Embedding of `countRecipientsFromLists`: empty `listIds` short-circuits to
`0`; otherwise `COUNT(DISTINCT member.contactId)` over the members of the
selected lists. -/
def countRecipientsFromLists (members : List Member) (listIds : List String) : Nat :=
  if listIds.length = 0 then 0
  else ((members.filter (fun m => listIds.contains m.listId)).map (fun m => m.contactId)).dedup.length

/-! ## Lemmas about the resolver fold -/

/-- The dedup-by-id fold preserves distinctness of the accumulated ids. -/
theorem foldl_addMember_nodup (lookup : String → Option ContactData) :
    ∀ (ms : List Member) (acc : List ContactData),
      (acc.map (fun ct => ct.id)).Nodup →
      (((ms.foldl (addMember lookup) acc)).map (fun ct => ct.id)).Nodup := by
  intro ms
  induction ms with
  | nil => intro acc h; simpa using h
  | cons m ms ih =>
    intro acc h
    rw [List.foldl_cons]
    apply ih
    unfold addMember
    cases hl : lookup m.contactId with
    | none => exact h
    | some ct =>
      dsimp only
      by_cases hany : acc.any (fun x => x.id = ct.id) = true
      · simpa [hany] using h
      · have hforall : ∀ x ∈ acc, ¬x.id = ct.id :=
          fun x hx hxeq => hany (List.any_eq_true.mpr ⟨x, hx, by simp [hxeq]⟩)
        rw [if_neg hany, List.map_append]
        simpa [List.nodup_append] using ⟨h, hforall⟩

/-- Membership in the ids accumulated by the fold: an id is present exactly
when it was already accumulated or it is the contact id of a processed member,
provided every processed member's contact id resolves to a contact carrying
that id. -/
theorem foldl_addMember_mem (lookup : String → Option ContactData) :
    ∀ (ms : List Member) (acc : List ContactData),
      (∀ m ∈ ms, ∃ ct, lookup m.contactId = some ct ∧ ct.id = m.contactId) →
      ∀ i, i ∈ ((ms.foldl (addMember lookup) acc)).map (fun ct => ct.id) ↔
        (i ∈ acc.map (fun ct => ct.id) ∨ i ∈ ms.map (fun m => m.contactId)) := by
  intro ms
  induction ms with
  | nil => intro acc _ i; simp
  | cons m ms ih =>
    intro acc href i
    rcases href m (by simp) with ⟨ct, hct, hid⟩
    rw [List.foldl_cons,
      ih (addMember lookup acc m) (fun x hx => href x (by simp [hx])) i]
    unfold addMember
    rw [hct]
    dsimp only
    by_cases hany : acc.any (fun x => x.id = ct.id) = true
    · rcases List.any_eq_true.mp hany with ⟨x, hx, hxid⟩
      have hin : ct.id ∈ acc.map (fun ct => ct.id) :=
        List.mem_map.mpr ⟨x, hx, by simpa using hxid⟩
      simp only [hany, if_true, List.map_cons, List.mem_cons]
      constructor
      · tauto
      · rintro (h | rfl | h)
        · tauto
        · exact Or.inl (hid ▸ hin)
        · tauto
    · rw [if_neg hany]
      simp only [List.map_append, List.mem_append, List.map_cons,
        List.mem_cons, List.map_nil, List.mem_singleton]
      rw [hid]
      tauto

/-! ## Claim C5 -/

/-- C5: the cheap recipient count agrees with the length of the fully
resolved, deduplicated contact array, for any set of list ids, provided the
store is referentially intact: every membership row's contact id resolves to
a stored contact carrying that id. -/
theorem claim_C5_count_matches_resolve (members : List Member)
    (lookup : String → Option ContactData) (listIds : List String)
    (href : ∀ m ∈ members, ∃ ct, lookup m.contactId = some ct ∧ ct.id = m.contactId) :
    countRecipientsFromLists members listIds
      = (getContactsFromLists members lookup listIds).length := by
  unfold countRecipientsFromLists getContactsFromLists
  by_cases h0 : listIds.length = 0
  · simp [h0]
  · simp only [h0, if_false]
    set ms := members.filter (fun m => listIds.contains m.listId) with hms
    have hrefms : ∀ m ∈ ms, ∃ ct, lookup m.contactId = some ct ∧ ct.id = m.contactId :=
      fun m hm => href m (List.mem_of_mem_filter hm)
    have hnd : ((ms.foldl (addMember lookup) []).map (fun ct => ct.id)).Nodup :=
      foldl_addMember_nodup lookup ms [] (by simp)
    have hlen : (ms.foldl (addMember lookup) []).length
        = ((ms.foldl (addMember lookup) []).map (fun ct => ct.id)).length := by
      rw [List.length_map]
    rw [hlen, ← List.toFinset_card_of_nodup hnd, ← List.card_toFinset]
    congr 1
    apply Finset.ext
    intro i
    rw [List.mem_toFinset, List.mem_toFinset, foldl_addMember_mem lookup ms [] hrefms i]
    simp

/-- Witness for `claim_C5_count_matches_resolve`: two lists sharing a contact
plus a second contact, with a concrete referentially-intact store. -/
theorem claim_C5_witness :
    countRecipientsFromLists [⟨"l1", "c1"⟩, ⟨"l2", "c1"⟩, ⟨"l2", "c2"⟩] ["l1", "l2"]
      = (getContactsFromLists [⟨"l1", "c1"⟩, ⟨"l2", "c1"⟩, ⟨"l2", "c2"⟩]
          (fun i => if i = "c1" then some ⟨"c1", "a@x.co", none, none, none⟩
            else if i = "c2" then some ⟨"c2", "b@x.co", none, none, none⟩ else none)
          ["l1", "l2"]).length := by
  apply claim_C5_count_matches_resolve
  intro m hm
  rcases List.mem_cons.mp hm with rfl | hm'
  · exact ⟨⟨"c1", "a@x.co", none, none, none⟩, rfl, rfl⟩
  rcases List.mem_cons.mp hm' with rfl | hm''
  · exact ⟨⟨"c1", "a@x.co", none, none, none⟩, rfl, rfl⟩
  rcases List.mem_cons.mp hm'' with rfl | hm'''
  · exact ⟨⟨"c2", "b@x.co", none, none, none⟩, rfl, rfl⟩
  · cases hm'''

/-! ## Claim C7 -/

/-- C7: the resolver returns each contact at most once — the ids of the
resolved contacts are pairwise distinct for every input — and in the concrete
two-lists-sharing-`c1` scenario, `c1` is returned exactly once. -/
theorem claim_C7_resolve_dedup (members : List Member)
    (lookup : String → Option ContactData) (listIds : List String) :
    ((getContactsFromLists members lookup listIds).map (fun ct => ct.id)).Nodup
    ∧ getContactsFromLists [⟨"list1", "c1"⟩, ⟨"list2", "c1"⟩]
        (fun i => if i = "c1" then some ⟨"c1", "a@x.co", none, none, none⟩ else none)
        ["list1", "list2"]
      = [⟨"c1", "a@x.co", none, none, none⟩] := by
  constructor
  · unfold getContactsFromLists
    by_cases h0 : listIds.length = 0
    · simp [h0]
    · simp only [h0, if_false]
      exact foldl_addMember_nodup lookup _ [] (by simp)
  · decide

/-! ## Campaign send state machine (`CampaignsService.send`,
src/src/campaigns/campaigns.service.ts:405-465)

The dispatcher call (`this.emailService.sendCampaign`) is external I/O; its
outcome is a parameter of the embedding: either a thrown error (message
string) or a `SendCampaignResult`.  Repository saves always succeed in the
model (no crash semantics); the returned pair is (result surfaced to the
caller, final persisted campaign). -/

/-- Campaign lifecycle states (`status` column of the campaign entity). -/
inductive CampaignStatus
  | draft
  | scheduled
  | sending
  | sent
  | failed
  | paused
deriving DecidableEq

/-- The campaign fields `send` reads or writes. -/
structure Campaign where
  status : CampaignStatus
  htmlContent : Option String
  recipients : Nat
  lists : Option (List String)
  delivered : Nat
  sentAt : Option Nat
deriving DecidableEq

/-- Aggregate result of a dispatcher `sendCampaign` call. -/
structure SendCampaignResult where
  sent : Nat
  failed : Nat
  messageIds : List String
deriving DecidableEq

/-- Model of the JavaScript falsiness test `!campaign.htmlContent`:
true for `null` and for the empty string. -/
def htmlFalsy : Option String → Bool
  | none => true
  | some s => s == ""

/-- Model of `new BadRequestException(error.message || 'Failed to send campaign')`:
the caught error's message is re-surfaced, with a fallback for an empty
message. -/
def wrapSendError (msg : String) : String :=
  if msg = "" then "Failed to send campaign" else msg

/-- Embedding of `CampaignsService.send`.  Returns the pair of the value
surfaced to the caller (`.ok` final campaign, or `.error` message for a
thrown `BadRequestException`) and the final persisted campaign. -/
def send (c : Campaign) (members : List Member) (lookup : String → Option ContactData)
    (dispatch : List ContactData → Except String SendCampaignResult) (now : Nat) :
    Except String Campaign × Campaign :=
  if c.status ≠ .draft ∧ c.status ≠ .scheduled ∧ c.status ≠ .failed then
    (.error "Campaign cannot be sent in its current state", c)
  else if htmlFalsy c.htmlContent then
    (.error "Campaign has no email content", c)
  else if c.recipients = 0 then
    (.error "Campaign has no recipients", c)
  else if (c.lists.getD []).length = 0 then
    (.error "Campaign has no contact lists", c)
  else
    let c1 : Campaign := { c with status := .sending, sentAt := some now }
    let contacts := getContactsFromLists members lookup (c.lists.getD [])
    if contacts.length = 0 then
      (.error (wrapSendError "No contacts found in selected lists"), { c1 with status := .failed })
    else
      match dispatch contacts with
      | .ok result =>
        let c2 : Campaign := { c1 with status := .sent, delivered := result.sent }
        (.ok c2, c2)
      | .error e =>
        (.error (wrapSendError e), { c1 with status := .failed })

/-! ## Claim C1 -/

/-- C1: when the preconditions pass (allowed status, truthy htmlContent,
positive recipients, at least one associated list), after `send` returns the
campaign is never left in `sending`; if the dispatcher succeeds the campaign
is `sent` with `delivered` equal to the dispatcher's sent count and the saved
campaign is returned; if the dispatcher throws, or recipient resolution comes
back empty (the thrown no-contacts error), the campaign is `failed` and the
error is re-surfaced to the caller. -/
theorem claim_C1_send_never_stuck (c : Campaign) (members : List Member)
    (lookup : String → Option ContactData)
    (dispatch : List ContactData → Except String SendCampaignResult) (now : Nat)
    (hstatus : c.status = .draft ∨ c.status = .scheduled ∨ c.status = .failed)
    (hhtml : htmlFalsy c.htmlContent = false)
    (hrec : 0 < c.recipients)
    (hlists : (c.lists.getD []).length ≠ 0) :
    (send c members lookup dispatch now).2.status ≠ .sending
    ∧ (∀ r, (getContactsFromLists members lookup (c.lists.getD [])).length ≠ 0 →
        dispatch (getContactsFromLists members lookup (c.lists.getD [])) = .ok r →
        (send c members lookup dispatch now).1 = .ok (send c members lookup dispatch now).2
          ∧ (send c members lookup dispatch now).2.status = .sent
          ∧ (send c members lookup dispatch now).2.delivered = r.sent)
    ∧ (∀ e, (getContactsFromLists members lookup (c.lists.getD [])).length ≠ 0 →
        dispatch (getContactsFromLists members lookup (c.lists.getD [])) = .error e →
        (send c members lookup dispatch now).2.status = .failed
          ∧ (send c members lookup dispatch now).1 = .error (wrapSendError e))
    ∧ ((getContactsFromLists members lookup (c.lists.getD [])).length = 0 →
        (send c members lookup dispatch now).2.status = .failed
          ∧ (send c members lookup dispatch now).1
              = .error "No contacts found in selected lists") := by
  have hst : ¬(c.status ≠ .draft ∧ c.status ≠ .scheduled ∧ c.status ≠ .failed) := by tauto
  have hh : ¬(htmlFalsy c.htmlContent = true) := by simp [hhtml]
  have hr : ¬(c.recipients = 0) := by omega
  rw [send, if_neg hst, if_neg hh, if_neg hr, if_neg hlists]
  dsimp only
  refine ⟨?_, ?_, ?_, ?_⟩
  · by_cases hc0 : (getContactsFromLists members lookup (c.lists.getD [])).length = 0
    · rw [if_pos hc0]
      simp
    · rw [if_neg hc0]
      cases hd : dispatch (getContactsFromLists members lookup (c.lists.getD [])) <;> simp
  · intro r hc0 hd
    rw [if_neg hc0, hd]
    exact ⟨rfl, rfl, rfl⟩
  · intro e hc0 hd
    rw [if_neg hc0, hd]
    exact ⟨rfl, rfl⟩
  · intro hc0
    rw [if_pos hc0]
    exact ⟨rfl, by rw [wrapSendError, if_neg (by decide)]⟩

/-- Witness for `claim_C1_send_never_stuck`: a draft campaign with one list,
one resolvable contact and a succeeding dispatcher ends `sent` with
`delivered = 1`. -/
theorem claim_C1_witness :
    (send ⟨.draft, some "<p>x</p>", 1, some ["l1"], 0, none⟩ [⟨"l1", "c1"⟩]
        (fun i => if i = "c1" then some ⟨"c1", "a@x.co", none, none, none⟩ else none)
        (fun cs => .ok ⟨cs.length, 0, ["m1"]⟩) 7).2.status = .sent
    ∧ (send ⟨.draft, some "<p>x</p>", 1, some ["l1"], 0, none⟩ [⟨"l1", "c1"⟩]
        (fun i => if i = "c1" then some ⟨"c1", "a@x.co", none, none, none⟩ else none)
        (fun cs => .ok ⟨cs.length, 0, ["m1"]⟩) 7).2.delivered = 1 := by
  have h := (claim_C1_send_never_stuck ⟨.draft, some "<p>x</p>", 1, some ["l1"], 0, none⟩
    [⟨"l1", "c1"⟩]
    (fun i => if i = "c1" then some ⟨"c1", "a@x.co", none, none, none⟩ else none)
    (fun cs => .ok ⟨cs.length, 0, ["m1"]⟩) 7
    (Or.inl rfl) (by decide) (by decide) (by decide)).2.1
    ⟨1, 0, ["m1"]⟩ (by decide) rfl
  exact ⟨h.2.1, h.2.2⟩

/-! ## Claim C3 -/

/-- C3: invoking `send` on a campaign whose status is not `draft`, `scheduled`
or `failed` surfaces the invalid-state error and leaves the campaign — status
and every other field — unchanged. -/
theorem claim_C3_invalid_state (c : Campaign) (members : List Member)
    (lookup : String → Option ContactData)
    (dispatch : List ContactData → Except String SendCampaignResult) (now : Nat)
    (hstatus : c.status ≠ .draft ∧ c.status ≠ .scheduled ∧ c.status ≠ .failed) :
    (send c members lookup dispatch now).1
        = .error "Campaign cannot be sent in its current state"
    ∧ (send c members lookup dispatch now).2 = c := by
  rw [send, if_pos hstatus]
  exact ⟨rfl, rfl⟩

/-- Witness for `claim_C3_invalid_state`: `send` on a `sent` campaign. -/
theorem claim_C3_witness :
    (send ⟨.sent, some "<p>x</p>", 1, some ["l1"], 1, some 3⟩ [] (fun _ => none)
        (fun _ => .error "never called") 9).1
      = .error "Campaign cannot be sent in its current state"
    ∧ (send ⟨.sent, some "<p>x</p>", 1, some ["l1"], 1, some 3⟩ [] (fun _ => none)
        (fun _ => .error "never called") 9).2
      = ⟨.sent, some "<p>x</p>", 1, some ["l1"], 1, some 3⟩ :=
  claim_C3_invalid_state ⟨.sent, some "<p>x</p>", 1, some ["l1"], 1, some 3⟩ [] (fun _ => none)
    (fun _ => .error "never called") 9 (by decide)

/-! ## Batch dispatchers

`SesService.sendCampaign` (src/src/common/email/ses.service.ts:152-225)
iterates the contact list in chunks of `CONCURRENCY = 10`, sending one email
per contact; a per-contact provider error is caught and counted, never
thrown.  `ResendService.sendCampaign` (the unnamed Resend service file)
splits contacts into batches of `BATCH_SIZE = 100` and calls the provider's
batch endpoint once per batch; a batch error whose message looks account-level
(`not verified` / `domain` / `API key`) aborts the whole operation, a other
batch error counts the whole batch as failed, and a final `sent == 0 &&
failed > 0` aggregate throws.  The external provider call outcomes are
parameters of the embeddings. -/

/-- Parameters of a dispatcher `sendCampaign` call. -/
structure SendCampaignParams where
  campaignId : String
  senderName : String
  senderEmail : String
  replyTo : Option String
  subject : String
  htmlContent : String
  contacts : List ContactData

/-- Model of the JavaScript ternary `a ? a : b` on a nullable string
(`params.replyTo ? [params.replyTo] : [params.senderEmail]` and
`params.replyTo || params.senderEmail`). -/
def jsOr (a : Option String) (b : String) : String :=
  match a with
  | some s => if s = "" then b else s
  | none => b

/-- One outgoing email as both services build it (personalization applied
per recipient immediately before the provider call). -/
structure OutgoingEmail where
  source : String
  toAddr : String
  replyTo : String
  subject : String
  html : String
deriving DecidableEq

/-- Per-recipient email construction shared by both dispatchers. -/
def buildEmail (p : SendCampaignParams) (contact : ContactData) : OutgoingEmail :=
  { source := p.senderName ++ " <" ++ p.senderEmail ++ ">"
    toAddr := contact.email
    replyTo := jsOr p.replyTo p.senderEmail
    subject := replaceTokens p.subject contact
    html := replaceTokens p.htmlContent contact }

/-- Chunking scanner (fuel-based for kernel reduction; fuel equal to the list
length always suffices since every step consumes at least one element for a
positive chunk size). -/
def chunksOfGo (k : Nat) : Nat → List α → List (List α)
  | _, [] => []
  | 0, l => [l]
  | fuel + 1, l => l.take k :: chunksOfGo k fuel (l.drop k)

/-- Splitting a list into chunks of size `k`: the model of the
`for (i = 0; i < n; i += k) slice(i, i + k)` loops in both dispatchers. -/
def chunksOf (k : Nat) (l : List α) : List (List α) :=
  chunksOfGo k l.length l

/-- Outcome of a single `this.ses.send(command)` call: a response whose
`MessageId` may be absent, or a thrown error (caught per contact). -/
inductive SesOutcome
  | ok (messageId : Option String)
  | err (msg : String)

/-- One chunk of the SES loop: the per-contact results are collected and then
folded by `results.forEach` — a success carrying a message id increments
`sent` and appends the id, anything else increments `failed`.  The
accumulator is `(totalSent, totalFailed, messageIds)`. -/
def sesProcessChunk (provider : OutgoingEmail → SesOutcome) (p : SendCampaignParams)
    (chunk : List ContactData) (acc : Nat × Nat × List String) : Nat × Nat × List String :=
  chunk.foldl (fun a contact =>
    match provider (buildEmail p contact) with
    | .ok (some mid) => (a.1 + 1, a.2.1, a.2.2 ++ [mid])
    | .ok none => (a.1, a.2.1 + 1, a.2.2)
    | .err _ => (a.1, a.2.1 + 1, a.2.2)) acc

/-- Embedding of `SesService.sendCampaign`: chunks of 10, per-contact send
with caught errors, aggregate counts returned.  This dispatcher never
throws. -/
def sesSendCampaign (provider : OutgoingEmail → SesOutcome)
    (p : SendCampaignParams) : SendCampaignResult :=
  let final := (chunksOf 10 p.contacts).foldl
    (fun acc chunk => sesProcessChunk provider p chunk acc) (0, 0, [])
  ⟨final.1, final.2.1, final.2.2⟩

/-- Outcome of a single `this.resend.batch.send(emails)` call: a thrown
exception, a returned `error` object, or returned data carrying one id per
accepted email. -/
inductive ResendBatchResponse
  | thrown (msg : String)
  | err (msg : String)
  | ok (ids : List String)

/-- The account-level fatal-error test on a Resend batch error message. -/
def resendFatal (msg : String) : Bool :=
  strIncludes msg "not verified" || strIncludes msg "domain" || strIncludes msg "API key"

/-- The batch loop of `ResendService.sendCampaign`: a thrown provider call or
a fatal error message aborts with that message; another batch error counts
the whole batch as failed and records the message; batch data counts its ids
as sent. -/
def resendLoop (api : List OutgoingEmail → ResendBatchResponse) :
    List (List OutgoingEmail) → Nat → Nat → List String → List String →
    Except String (Nat × Nat × List String × List String)
  | [], sent, failedCount, ids, errs => .ok (sent, failedCount, ids, errs)
  | batch :: rest, sent, failedCount, ids, errs =>
    match api batch with
    | .thrown m => .error m
    | .err m =>
      if resendFatal m then .error m
      else resendLoop api rest sent (failedCount + batch.length) ids (errs ++ [m])
    | .ok batchIds => resendLoop api rest (sent + batchIds.length) failedCount (ids ++ batchIds) errs

/-- Embedding of `ResendService.sendCampaign`: batches of 100 through
`resendLoop`, then the zero-success guard — if no email was sent and some
failed, the whole operation throws the first recorded error message. -/
def resendSendCampaign (api : List OutgoingEmail → ResendBatchResponse)
    (p : SendCampaignParams) : Except String SendCampaignResult :=
  let batches := (chunksOf 100 p.contacts).map (fun b => b.map (buildEmail p))
  match resendLoop api batches 0 0 [] [] with
  | .error m => .error m
  | .ok (sent, failedCount, ids, errs) =>
    if sent = 0 ∧ 0 < failedCount then
      .error (match errs with
        | e :: _ => e
        | [] => "Failed to send campaign emails")
    else
      .ok ⟨sent, failedCount, ids⟩

/-! ## Lemmas about the dispatchers -/

/-- Chunks of a list concatenate back to the list, whatever the fuel. -/
theorem chunksOfGo_flatten (k : Nat) :
    ∀ (fuel : Nat) (l : List α), (chunksOfGo k fuel l).flatten = l := by
  intro fuel
  induction fuel with
  | zero =>
    intro l
    cases l with
    | nil => rfl
    | cons x xs => simp [chunksOfGo]
  | succ n ih =>
    intro l
    cases l with
    | nil => rfl
    | cons x xs =>
      rw [show chunksOfGo k (n + 1) (x :: xs)
          = (x :: xs).take k :: chunksOfGo k n ((x :: xs).drop k) from rfl]
      rw [List.flatten_cons, ih, List.take_append_drop]

/-- A SES chunk adds exactly the chunk length to `sent + failed`. -/
theorem sesProcessChunk_count (provider : OutgoingEmail → SesOutcome)
    (p : SendCampaignParams) :
    ∀ (chunk : List ContactData) (acc : Nat × Nat × List String),
      (sesProcessChunk provider p chunk acc).1 + (sesProcessChunk provider p chunk acc).2.1
        = acc.1 + acc.2.1 + chunk.length := by
  intro chunk
  induction chunk with
  | nil => intro acc; rfl
  | cons contact rest ih =>
    intro acc
    cases h : provider (buildEmail p contact) with
    | ok mid =>
      cases mid with
      | some m =>
        rw [show (sesProcessChunk provider p (contact :: rest) acc)
            = sesProcessChunk provider p rest (acc.1 + 1, acc.2.1, acc.2.2 ++ [m]) from by
          simp only [sesProcessChunk, List.foldl_cons, h]]
        rw [ih]
        simp only [List.length_cons]
        omega
      | none =>
        rw [show (sesProcessChunk provider p (contact :: rest) acc)
            = sesProcessChunk provider p rest (acc.1, acc.2.1 + 1, acc.2.2) from by
          simp only [sesProcessChunk, List.foldl_cons, h]]
        rw [ih]
        simp only [List.length_cons]
        omega
    | err m =>
      rw [show (sesProcessChunk provider p (contact :: rest) acc)
          = sesProcessChunk provider p rest (acc.1, acc.2.1 + 1, acc.2.2) from by
        simp only [sesProcessChunk, List.foldl_cons, h]]
      rw [ih]
      simp only [List.length_cons]
      omega

/-- The SES chunk fold adds exactly the total length of all chunks. -/
theorem sesFold_count (provider : OutgoingEmail → SesOutcome) (p : SendCampaignParams) :
    ∀ (chunks : List (List ContactData)) (acc : Nat × Nat × List String),
      (chunks.foldl (fun a chunk => sesProcessChunk provider p chunk a) acc).1
          + (chunks.foldl (fun a chunk => sesProcessChunk provider p chunk a) acc).2.1
        = acc.1 + acc.2.1 + chunks.flatten.length := by
  intro chunks
  induction chunks with
  | nil => intro acc; simp
  | cons chunk rest ih =>
    intro acc
    rw [List.foldl_cons, ih, sesProcessChunk_count]
    simp only [List.flatten_cons, List.length_append]
    omega

/-- The Resend batch loop adds exactly the total length of all batches to
`sent + failed`, when it completes without throwing and the provider returns
one id per email of an accepted batch. -/
theorem resendLoop_count (api : List OutgoingEmail → ResendBatchResponse)
    (hid : ∀ emails ids, api emails = .ok ids → ids.length = emails.length) :
    ∀ (batches : List (List OutgoingEmail)) (sent failedCount : Nat)
      (ids errs : List String) (out : Nat × Nat × List String × List String),
      resendLoop api batches sent failedCount ids errs = .ok out →
      out.1 + out.2.1 = sent + failedCount + (batches.map List.length).sum := by
  intro batches
  induction batches with
  | nil =>
    intro sent failedCount ids errs out h
    simp only [resendLoop] at h
    cases h
    simp
  | cons batch rest ih =>
    intro sent failedCount ids errs out h
    cases hapi : api batch with
    | thrown m =>
      simp only [resendLoop, hapi] at h
      exact Except.noConfusion h
    | err m =>
      simp only [resendLoop, hapi] at h
      by_cases hf : resendFatal m = true
      · rw [if_pos hf] at h; cases h
      · rw [if_neg hf] at h
        have := ih sent (failedCount + batch.length) ids (errs ++ [m]) out h
        rw [this]
        simp only [List.map_cons, List.sum_cons]
        omega
    | ok batchIds =>
      simp only [resendLoop, hapi] at h
      have := ih (sent + batchIds.length) failedCount (ids ++ batchIds) errs out h
      rw [this, hid batch batchIds hapi]
      simp only [List.map_cons, List.sum_cons]
      omega

/-! ## Claim C8 -/

/-- C8: when a dispatcher `sendCampaign` call returns a result, the counts
satisfy `sent + failed = contacts.length`: every supplied contact is counted
exactly once.  The SES dispatcher never throws, so its equation is
unconditional; the Resend dispatcher's equation holds for every call
returning `.ok`, under the batch provider's contract of one message id per
accepted email. -/
theorem claim_C8_dispatch_accounting (provider : OutgoingEmail → SesOutcome)
    (api : List OutgoingEmail → ResendBatchResponse) (p : SendCampaignParams)
    (r : SendCampaignResult)
    (hid : ∀ emails ids, api emails = .ok ids → ids.length = emails.length)
    (hr : resendSendCampaign api p = .ok r) :
    (sesSendCampaign provider p).sent + (sesSendCampaign provider p).failed
        = p.contacts.length
    ∧ r.sent + r.failed = p.contacts.length := by
  constructor
  · show ((chunksOf 10 p.contacts).foldl
        (fun acc chunk => sesProcessChunk provider p chunk acc) (0, 0, [])).1
      + ((chunksOf 10 p.contacts).foldl
        (fun acc chunk => sesProcessChunk provider p chunk acc) (0, 0, [])).2.1
      = p.contacts.length
    rw [sesFold_count provider p (chunksOf 10 p.contacts) (0, 0, [])]
    rw [chunksOf, chunksOfGo_flatten]
    simp
  · rw [resendSendCampaign] at hr
    cases hloop : resendLoop api ((chunksOf 100 p.contacts).map (fun b => b.map (buildEmail p)))
        0 0 [] [] with
    | error m =>
      simp only [hloop] at hr
      exact Except.noConfusion hr
    | ok out =>
      obtain ⟨sent, failedCount, ids, errs⟩ := out
      simp only [hloop] at hr
      by_cases hz : sent = 0 ∧ 0 < failedCount
      · rw [if_pos hz] at hr; cases hr
      · rw [if_neg hz] at hr
        cases hr
        have hc := resendLoop_count api hid _ 0 0 [] [] _ hloop
        simp only at hc
        rw [show (⟨sent, failedCount, ids⟩ : SendCampaignResult).sent = sent from rfl,
          show (⟨sent, failedCount, ids⟩ : SendCampaignResult).failed = failedCount from rfl,
          hc]
        simp only [List.map_map]
        rw [show (List.length ∘ fun b => b.map (buildEmail p)) = fun b : List ContactData => b.length from by
          funext b; simp]
        rw [← List.length_flatten, chunksOf, chunksOfGo_flatten]
        omega

/-- Witness for `claim_C8_dispatch_accounting`: two contacts, an SES provider
failing on everything, a Resend provider accepting everything. -/
theorem claim_C8_witness :
    (sesSendCampaign (fun _ => SesOutcome.err "mailbox full")
        ⟨"cmp", "S", "s@x.co", none, "Subj", "<p>h</p>",
          [⟨"c1", "a@x.co", none, none, none⟩, ⟨"c2", "b@x.co", none, none, none⟩]⟩).sent
      + (sesSendCampaign (fun _ => SesOutcome.err "mailbox full")
        ⟨"cmp", "S", "s@x.co", none, "Subj", "<p>h</p>",
          [⟨"c1", "a@x.co", none, none, none⟩, ⟨"c2", "b@x.co", none, none, none⟩]⟩).failed
      = 2
    ∧ (2 : Nat) + 0 = 2 := by
  have h := claim_C8_dispatch_accounting (fun _ => SesOutcome.err "mailbox full")
    (fun emails => ResendBatchResponse.ok (emails.map (fun _ => "mid")))
    ⟨"cmp", "S", "s@x.co", none, "Subj", "<p>h</p>",
      [⟨"c1", "a@x.co", none, none, none⟩, ⟨"c2", "b@x.co", none, none, none⟩]⟩
    ⟨2, 0, ["mid", "mid"]⟩
    (fun emails ids hok => by cases hok; simp) rfl
  exact ⟨h.1, h.2⟩

/-! ## Claim C2 -/

/-- C2, counterexample: the claim asserts every dispatcher throws on a
`sent == 0 && failed > 0` aggregate, but the SES dispatcher — the one
`CampaignsService.send` is wired to — returns the zero-delivery result
without throwing: one contact whose send fails yields `{sent: 0, failed: 1}`
as a normal return value. -/
theorem claim_C2_counterexample :
    sesSendCampaign (fun _ => SesOutcome.err "connection reset")
        ⟨"cmp", "S", "s@x.co", none, "Subj", "<p>h</p>",
          [⟨"c1", "a@x.co", none, none, none⟩]⟩
      = ⟨0, 1, []⟩ := by
  rfl

/-- C2 (amended): the Resend dispatcher throws instead of returning whenever
the aggregate is `sent == 0 && failed > 0`; the SES dispatcher has no such
guard and returns the zero-delivery aggregate as a normal result. -/
theorem claim_C2_zero_success_throws (api : List OutgoingEmail → ResendBatchResponse)
    (p : SendCampaignParams) (r : SendCampaignResult)
    (_hne : p.contacts ≠ [])
    (hr : resendSendCampaign api p = .ok r) :
    ¬(r.sent = 0 ∧ 0 < r.failed) := by
  rw [resendSendCampaign] at hr
  cases hloop : resendLoop api ((chunksOf 100 p.contacts).map (fun b => b.map (buildEmail p)))
      0 0 [] [] with
  | error m =>
    simp only [hloop] at hr
    exact Except.noConfusion hr
  | ok out =>
    obtain ⟨sent, failedCount, ids, errs⟩ := out
    simp only [hloop] at hr
    by_cases hz : sent = 0 ∧ 0 < failedCount
    · rw [if_pos hz] at hr; cases hr
    · rw [if_neg hz] at hr
      cases hr
      exact hz

/-- Witness for `claim_C2_zero_success_throws`: a one-contact dispatch whose
batch is accepted. -/
theorem claim_C2_witness :
    ¬(((⟨1, 0, ["mid"]⟩ : SendCampaignResult)).sent = 0
      ∧ 0 < ((⟨1, 0, ["mid"]⟩ : SendCampaignResult)).failed) :=
  claim_C2_zero_success_throws
    (fun emails => ResendBatchResponse.ok (emails.map (fun _ => "mid")))
    ⟨"cmp", "S", "s@x.co", none, "Subj", "<p>h</p>", [⟨"c1", "a@x.co", none, none, none⟩]⟩
    ⟨1, 0, ["mid"]⟩ (by decide) rfl

/-! ## Contact import and dedup engine
(`ContactsService.bulkImport`, src/src/contacts/contacts.service.ts:127-245)

The embedding is scoped to one owner (`userId`): `storage` is that owner's
contact rows.  JavaScript `Map`s are association lists with `set`-updates in
place (insertion order preserved); the aliasing of mutated objects
(`Object.assign` on entries of `seenInImport` / `existingByEmail`, whose
final object states are what `save` persists) is modelled by keeping the
current state of each mutated record keyed by email.  Entity fields that the
batch never writes from items (`id`, timestamps) are not modelled;
`updatedAt` is only touched on the keepLast/merge update paths. -/

/-- One row of the import batch (`BulkImportDto.contacts` items). -/
structure ImportItem where
  email : Option String
  firstName : Option String := none
  lastName : Option String := none
  company : Option String := none
  role : Option String := none
  tags : Option (List String) := none
deriving DecidableEq

/-- A stored contact row, restricted to the fields `bulkImport` reads or
writes. -/
structure StoredContact where
  email : String
  firstName : Option String
  lastName : Option String
  company : Option String
  role : Option String
  tags : List String
  customMeta : List (String × String)
  status : String
  validationErrors : List String
deriving DecidableEq

instance : Inhabited StoredContact :=
  ⟨⟨"", none, none, none, none, [], [], "", []⟩⟩

/-- The dedupe strategies of the import DTO. -/
inductive DedupeStrategy
  | keepFirst
  | keepLast
  | merge
deriving DecidableEq

/-- Local-part characters of the email regex
(`[a-zA-Z0-9.!#$%&'*+/=?^_`{|}~-]`, backtick and braces included). -/
def isLocalChar (c : Char) : Bool :=
  c.isAlphanum || ".!#$%&\x27*+/=?^_\x60\x7b|\x7d~-".data.contains c

/-- Domain-label inner characters of the email regex (`[a-zA-Z0-9-]`). -/
def isLabelChar (c : Char) : Bool :=
  c.isAlphanum || c == '-'

/-- One dot-separated domain label of the email regex:
`[a-zA-Z0-9](?:[a-zA-Z0-9-]{0,61}[a-zA-Z0-9])?` — a single alphanumeric
character, or 2 to 63 characters starting and ending alphanumeric with
alphanumeric-or-hyphen in between. -/
def validLabel : List Char → Bool
  | [] => false
  | [c] => c.isAlphanum
  | c :: rest =>
    c.isAlphanum && rest.length ≤ 62 && rest.dropLast.all isLabelChar &&
      (match rest.getLast? with
       | some d => d.isAlphanum
       | none => false)

/-- Splitting a character list on a separator character (the splits the email
validator needs; always returns at least one group). -/
def splitOnChar (sep : Char) : List Char → List (List Char)
  | [] => [[]]
  | c :: rest =>
    let r := splitOnChar sep rest
    if c == sep then [] :: r
    else
      match r with
      | [] => [[c]]
      | g :: gs => (c :: g) :: gs

/-- Executable embedding of `EMAIL_REGEX.test(email)`
(src/src/contacts/contacts.service.ts:24): exactly one `@`, a nonempty local
part over the local character class, and a dot-separated domain of valid
labels. -/
def isValidEmail (e : String) : Bool :=
  match splitOnChar '@' e.data with
  | [localPart, domain] =>
    !localPart.isEmpty && localPart.all isLocalChar
      && (splitOnChar '.' domain).all (fun l => validLabel l)
  | _ => false

/-- ASCII lowercasing, the model of `String.prototype.toLowerCase` on the
email strings involved. -/
def jsToLower (s : String) : String :=
  ⟨s.data.map Char.toLower⟩

/-- Whitespace trimming at both ends, the model of `String.prototype.trim`. -/
def jsTrim (s : String) : String :=
  ⟨((s.data.dropWhile Char.isWhitespace).reverse.dropWhile Char.isWhitespace).reverse⟩

/-- Normalization `item.email?.toLowerCase().trim()`. -/
def normEmail (e : Option String) : Option String :=
  e.map (fun s => jsTrim (jsToLower s))

/-- Embedding of `determineStatus`: a missing or empty email is invalid
(`Email is required`), a regex failure is invalid (`Invalid email format`),
otherwise valid.  Returns (is-valid, error list). -/
def determineStatus (email : Option String) : Bool × List String :=
  match email with
  | none => (false, ["Email is required"])
  | some e =>
    if e = "" then (false, ["Email is required"])
    else if isValidEmail e then (true, [])
    else (false, ["Invalid email format"])

/-- Model of the JavaScript `x || null` on an optional string field:
the empty string collapses to null. -/
def jsOrNull (o : Option String) : Option String :=
  match o with
  | some s => if s = "" then none else some s
  | none => none

/-- Truthiness of a nullable string (`if (newData.firstName)` …). -/
def jsTruthyStr (o : Option String) : Bool :=
  match o with
  | some s => !(s == "")
  | none => false

/-- The `contactData` object built per row: normalized email, `|| null`
scalar fields, `|| []` tags, empty `customMeta`, status `valid`. -/
def contactDataOfItem (item : ImportItem) (email : String) : StoredContact :=
  { email := email
    firstName := jsOrNull item.firstName
    lastName := jsOrNull item.lastName
    company := jsOrNull item.company
    role := jsOrNull item.role
    tags := item.tags.getD []
    customMeta := []
    status := "valid"
    validationErrors := [] }

/-- Insertion-order dedup of a string list, the model of
`[...new Set([...a, ...b])]`. -/
def dedupFirst (l : List String) : List String :=
  l.foldl (fun acc x => if acc.contains x then acc else acc ++ [x]) []

/-- Shallow merge of two metadata maps, the model of `{...a, ...b}` (keys of
`b` win; key order: `a`'s keys first, then `b`'s new keys). -/
def mergeMeta (a b : List (String × String)) : List (String × String) :=
  a.map (fun kv =>
    match b.find? (fun kv2 => kv2.1 == kv.1) with
    | some kv2 => (kv.1, kv2.2)
    | none => kv)
  ++ b.filter (fun kv2 => !(a.any (fun kv => kv.1 == kv2.1)))

/-- Embedding of `mergeContacts`: truthy scalar fields of the new data
overwrite, nonempty tags are set-unioned, `customMeta` is shallow-merged
(`{}` is truthy in JavaScript, so the merge always runs). -/
def mergeContacts (existing newData : StoredContact) : StoredContact :=
  { existing with
    firstName := if jsTruthyStr newData.firstName then newData.firstName else existing.firstName
    lastName := if jsTruthyStr newData.lastName then newData.lastName else existing.lastName
    company := if jsTruthyStr newData.company then newData.company else existing.company
    role := if jsTruthyStr newData.role then newData.role else existing.role
    tags := if !newData.tags.isEmpty then dedupFirst (existing.tags ++ newData.tags) else existing.tags
    customMeta := mergeMeta existing.customMeta newData.customMeta }

/-- Embedding of `Object.assign(existing, contactData)`: every modelled field
is a key of `contactData`, so the assignment replaces them all. -/
def assignContactData (_existing newData : StoredContact) : StoredContact :=
  newData

/-- JS `Map.prototype.set` on an association list: update in place preserving
insertion order, else append. -/
def assocSet (m : List (String × StoredContact)) (k : String) (v : StoredContact) :
    List (String × StoredContact) :=
  if m.any (fun kv => kv.1 = k) then
    m.map (fun kv => if kv.1 = k then (k, v) else kv)
  else
    m ++ [(k, v)]

/-- JS `Map.prototype.get` on an association list. -/
def assocGet (m : List (String × StoredContact)) (k : String) : Option StoredContact :=
  (m.find? (fun kv => kv.1 = k)).map (fun kv => kv.2)

/-- JS `Map.prototype.has` on an association list. -/
def assocHas (m : List (String × StoredContact)) (k : String) : Bool :=
  m.any (fun kv => kv.1 = k)

/-- The `existingByEmail` map: `existingContacts.forEach(c => set(c.email, c))`. -/
def existingByEmail (storage : List StoredContact) : List (String × StoredContact) :=
  storage.foldl (fun m c => assocSet m c.email c) []

/-- State of the import loop.  `newByEmail` plays both roles of
`seenInImport` and `toSave` (its values are the current object states of the
new contacts, which later mutations through `seenInImport` update in place);
`updatesByEmail` holds the current object state of each mutated existing
contact; `updEmails` records the `toUpdate.push` calls in order (the same
object may be pushed more than once); `dupDiscarded` counts the duplicates
resolved by discarding the incoming row (the `KEEP_FIRST` branches). -/
structure ImportState where
  skipped : Nat
  duplicates : Nat
  dupDiscarded : Nat
  errors : List (Nat × String × String)
  newByEmail : List (String × StoredContact)
  updatesByEmail : List (String × StoredContact)
  updEmails : List String
deriving DecidableEq

/-- Comma-joined error reasons (`errors.join(', ')`). -/
def joinComma : List String → String
  | [] => ""
  | [s] => s
  | s :: rest => s ++ ", " ++ joinComma rest

/-- One iteration of the `bulkImport` row loop. -/
def importRow (strat : DedupeStrategy) (exMap : List (String × StoredContact))
    (st : ImportState) (i : Nat) (item : ImportItem) : ImportState :=
  let email? := normEmail item.email
  let vs := determineStatus email?
  if !vs.1 then
    { st with
      skipped := st.skipped + 1
      errors := st.errors ++ [(i + 1, email?.getD "", joinComma vs.2)] }
  else
    let email := email?.getD ""
    let contactData := contactDataOfItem item email
    if assocHas st.newByEmail email then
      match strat with
      | .keepFirst =>
        { st with duplicates := st.duplicates + 1, dupDiscarded := st.dupDiscarded + 1 }
      | .keepLast =>
        { st with
          duplicates := st.duplicates + 1
          newByEmail := st.newByEmail.map (fun kv =>
            if kv.1 = email then (kv.1, assignContactData kv.2 contactData) else kv) }
      | .merge =>
        { st with
          duplicates := st.duplicates + 1
          newByEmail := st.newByEmail.map (fun kv =>
            if kv.1 = email then (kv.1, mergeContacts kv.2 contactData) else kv) }
    else if assocHas exMap email then
      let current :=
        match assocGet st.updatesByEmail email with
        | some c => c
        | none => (assocGet exMap email).getD default
      match strat with
      | .keepFirst =>
        { st with duplicates := st.duplicates + 1, dupDiscarded := st.dupDiscarded + 1 }
      | .keepLast =>
        { st with
          duplicates := st.duplicates + 1
          updatesByEmail := assocSet st.updatesByEmail email (assignContactData current contactData)
          updEmails := st.updEmails ++ [email] }
      | .merge =>
        { st with
          duplicates := st.duplicates + 1
          updatesByEmail := assocSet st.updatesByEmail email (mergeContacts current contactData)
          updEmails := st.updEmails ++ [email] }
    else
      { st with newByEmail := st.newByEmail ++ [(email, contactData)] }

/-- The row loop of `bulkImport` over the indexed batch rows. -/
def importFold (strat : DedupeStrategy) (exMap : List (String × StoredContact))
    (rows : List (Nat × ImportItem)) (st : ImportState) : ImportState :=
  rows.foldl (fun s p => importRow strat exMap s p.1 p.2) st

/-- Result of a bulk import.  `imported`, `skipped`, `duplicates`, `contacts`
and `errors` mirror the source's `BulkImportResult`; `dupDiscarded` exposes
the count of duplicates resolved by discarding the incoming row, and
`updatedCount` the length of the source's `toUpdate` save batch — both are
directly observable in the source (the `KEEP_FIRST` branch hits and
`updated.length`) and are carried here for specification purposes. -/
structure BulkImportResult where
  imported : Nat
  skipped : Nat
  duplicates : Nat
  dupDiscarded : Nat
  updatedCount : Nat
  contacts : List StoredContact
  errors : List (Nat × String × String)
deriving DecidableEq

/-- Persisting the update batch: each updated contact replaces the stored row
with its email (emails are unique per owner in storage). -/
def applyUpdates (storage : List StoredContact)
    (updates : List (String × StoredContact)) : List StoredContact :=
  storage.map (fun c =>
    match assocGet updates c.email with
    | some u => u
    | none => c)

/-- Embedding of `ContactsService.bulkImport` for one owner.  Returns the
result object and the owner's storage after the batch writes (`save(toSave)`
inserts, `save(toUpdate)` updates). -/
def bulkImport (storage : List StoredContact) (items : List ImportItem)
    (strat : DedupeStrategy) : BulkImportResult × List StoredContact :=
  if items.length = 0 then
    (⟨0, 0, 0, 0, 0, [], []⟩, storage)
  else
    let exMap := existingByEmail storage
    let stF := importFold strat exMap items.enum ⟨0, 0, 0, [], [], [], []⟩
    let toSave := stF.newByEmail.map (fun kv => kv.2)
    let toUpdate := stF.updEmails.map (fun e => (assocGet stF.updatesByEmail e).getD default)
    (⟨toSave.length + toUpdate.length, stF.skipped, stF.duplicates, stF.dupDiscarded,
        toUpdate.length, toSave ++ toUpdate, stF.errors⟩,
      applyUpdates storage stF.updatesByEmail ++ toSave)

/-! ## Lemmas about the import loop -/

/-- Every row moves exactly one of `skipped`, `duplicates`, or the set of new
contacts by one; under `keepFirst` no update is ever recorded and every
duplicate is a discarded duplicate. -/
theorem importRow_step (strat : DedupeStrategy) (exMap : List (String × StoredContact))
    (st : ImportState) (i : Nat) (item : ImportItem) :
    (importRow strat exMap st i item).skipped + (importRow strat exMap st i item).duplicates
        + (importRow strat exMap st i item).newByEmail.length
      = st.skipped + st.duplicates + st.newByEmail.length + 1
    ∧ (strat = .keepFirst →
        (importRow strat exMap st i item).updEmails = st.updEmails
        ∧ (importRow strat exMap st i item).updatesByEmail = st.updatesByEmail
        ∧ (importRow strat exMap st i item).duplicates + st.dupDiscarded
            = (importRow strat exMap st i item).dupDiscarded + st.duplicates) := by
  cases strat <;>
    (simp only [importRow]
     split_ifs <;> simp <;> omega)

/-- Fold version of `importRow_step`. -/
theorem importFold_counts (strat : DedupeStrategy) (exMap : List (String × StoredContact)) :
    ∀ (rows : List (Nat × ImportItem)) (st : ImportState),
      (importFold strat exMap rows st).skipped + (importFold strat exMap rows st).duplicates
          + (importFold strat exMap rows st).newByEmail.length
        = st.skipped + st.duplicates + st.newByEmail.length + rows.length
      ∧ (strat = .keepFirst →
          (importFold strat exMap rows st).updEmails = st.updEmails
          ∧ (importFold strat exMap rows st).updatesByEmail = st.updatesByEmail
          ∧ (importFold strat exMap rows st).duplicates + st.dupDiscarded
              = (importFold strat exMap rows st).dupDiscarded + st.duplicates) := by
  intro rows
  induction rows with
  | nil => intro st; exact ⟨by simp [importFold], fun _ => ⟨rfl, rfl, Nat.add_comm st.duplicates st.dupDiscarded⟩⟩
  | cons p rest ih =>
    intro st
    have hfold : importFold strat exMap (p :: rest) st
        = importFold strat exMap rest (importRow strat exMap st p.1 p.2) := by
      simp [importFold]
    have hstep := importRow_step strat exMap st p.1 p.2
    have hih := ih (importRow strat exMap st p.1 p.2)
    rw [hfold]
    constructor
    · rw [hih.1, hstep.1]
      simp only [List.length_cons]
      omega
    · intro hk
      refine ⟨?_, ?_, ?_⟩
      · rw [(hih.2 hk).1, (hstep.2 hk).1]
      · rw [(hih.2 hk).2.1, (hstep.2 hk).2.1]
      · have h1 := (hih.2 hk).2.2
        have h2 := (hstep.2 hk).2.2
        omega

/-- `assocHas` is membership among the keys. -/
theorem assocHas_iff_mem (m : List (String × StoredContact)) (k : String) :
    assocHas m k = true ↔ k ∈ m.map (fun kv => kv.1) := by
  unfold assocHas
  rw [List.any_eq_true]
  constructor
  · rintro ⟨kv, hkv, hp⟩
    exact List.mem_map.mpr ⟨kv, hkv, by simpa using hp⟩
  · intro hk
    rcases List.mem_map.mp hk with ⟨kv, hkv, hp⟩
    exact ⟨kv, hkv, by simp [hp]⟩

/-- A `Map.set` adds exactly the written key to the key set. -/
theorem assocHas_assocSet (m : List (String × StoredContact)) (k : String) (v : StoredContact)
    (k' : String) :
    assocHas (assocSet m k v) k' = true ↔ (assocHas m k' = true ∨ k' = k) := by
  by_cases h : m.any (fun kv => kv.1 = k) = true
  · have hkeys : (assocSet m k v).map (fun kv => kv.1) = m.map (fun kv => kv.1) := by
      rw [assocSet, if_pos h, List.map_map]
      apply List.map_congr_left
      intro kv _
      by_cases hq : kv.1 = k
      · simp [hq]
      · simp [hq]
    rw [assocHas_iff_mem, hkeys, ← assocHas_iff_mem]
    constructor
    · exact Or.inl
    · rintro (hm | rfl)
      · exact hm
      · exact h
  · have hkeys : (assocSet m k v).map (fun kv => kv.1) = m.map (fun kv => kv.1) ++ [k] := by
      rw [assocSet, if_neg h, List.map_append]
      rfl
    rw [assocHas_iff_mem, hkeys, List.mem_append, List.mem_singleton, ← assocHas_iff_mem]

/-- The keys of `existingByEmail` are exactly the stored emails. -/
theorem existingByEmail_keys_aux :
    ∀ (s : List StoredContact) (m : List (String × StoredContact)) (e : String),
      assocHas (s.foldl (fun m c => assocSet m c.email c) m) e = true
        ↔ (assocHas m e = true ∨ e ∈ s.map (fun c => c.email)) := by
  intro s
  induction s with
  | nil => intro m e; simp
  | cons c rest ih =>
    intro m e
    rw [List.foldl_cons, ih (assocSet m c.email c) e, assocHas_assocSet]
    simp only [List.map_cons, List.mem_cons]
    tauto

/-- Key set of the `existingByEmail` map. -/
theorem existingByEmail_keys (s : List StoredContact) (e : String) :
    assocHas (existingByEmail s) e = true ↔ e ∈ s.map (fun c => c.email) := by
  rw [existingByEmail, existingByEmail_keys_aux]
  simp [assocHas]

/-- The in-place value update of the seen-in-import branches does not change
the key list. -/
theorem keys_map_update (m : List (String × StoredContact)) (email : String)
    (g : String × StoredContact → StoredContact) :
    (m.map (fun kv => if kv.1 = email then (kv.1, g kv) else kv)).map (fun kv => kv.1)
      = m.map (fun kv => kv.1) := by
  rw [List.map_map]
  apply List.map_congr_left
  intro kv _
  by_cases hq : kv.1 = email
  · simp [hq]
  · simp [hq]

/-- One import row never removes a key from the new-contact map. -/
theorem importRow_newKeys (strat : DedupeStrategy) (exMap : List (String × StoredContact))
    (st : ImportState) (i : Nat) (item : ImportItem) (k : String)
    (h : assocHas st.newByEmail k = true) :
    assocHas (importRow strat exMap st i item).newByEmail k = true := by
  cases strat <;>
    (simp only [importRow]
     split_ifs <;>
       first
       | exact h
       | (rw [assocHas_iff_mem, keys_map_update, ← assocHas_iff_mem]; exact h)
       | (rw [assocHas_iff_mem, List.map_append, List.mem_append]
          exact Or.inl ((assocHas_iff_mem _ _).mp h)))

/-- Fold version of `importRow_newKeys`. -/
theorem importFold_newKeys (strat : DedupeStrategy) (exMap : List (String × StoredContact)) :
    ∀ (rows : List (Nat × ImportItem)) (st : ImportState) (k : String),
      assocHas st.newByEmail k = true →
      assocHas (importFold strat exMap rows st).newByEmail k = true := by
  intro rows
  induction rows with
  | nil => intro st k h; exact h
  | cons p rest ih =>
    intro st k h
    rw [show importFold strat exMap (p :: rest) st
        = importFold strat exMap rest (importRow strat exMap st p.1 p.2) from by
      simp [importFold]]
    exact ih _ k (importRow_newKeys strat exMap st p.1 p.2 k h)

/-- An invalid row leaves the new-contact map untouched. -/
theorem importRow_invalid (strat : DedupeStrategy) (exMap : List (String × StoredContact))
    (st : ImportState) (i : Nat) (item : ImportItem)
    (hval : (determineStatus (normEmail item.email)).1 = false) :
    (importRow strat exMap st i item).newByEmail = st.newByEmail := by
  have hb : (!(determineStatus (normEmail item.email)).1) = true := by
    rw [hval]; rfl
  simp only [importRow, hb, if_true]

/-- A valid row whose email is neither in the new-contact map nor among the
storage keys appends a new contact. -/
theorem importRow_new_branch (strat : DedupeStrategy) (exMap : List (String × StoredContact))
    (st : ImportState) (i : Nat) (item : ImportItem) (e : String)
    (hne : normEmail item.email = some e)
    (hval : (determineStatus (normEmail item.email)).1 = true)
    (h1 : assocHas st.newByEmail e = false)
    (h2 : assocHas exMap e = false) :
    (importRow strat exMap st i item).newByEmail
      = st.newByEmail ++ [(e, contactDataOfItem item e)] := by
  rw [hne] at hval
  have hb : (!(determineStatus (some e)).1) = false := by
    rw [hval]; rfl
  simp only [importRow, hne, Option.getD_some, hb, Bool.false_eq_true, if_false, h1, h2]

/-- Under `keepFirst`, a valid row whose email is a storage key (and not a
new-contact key) leaves the new-contact map untouched. -/
theorem importRow_existing_keepFirst (exMap : List (String × StoredContact))
    (st : ImportState) (i : Nat) (item : ImportItem) (e : String)
    (hne : normEmail item.email = some e)
    (hval : (determineStatus (normEmail item.email)).1 = true)
    (h1 : assocHas st.newByEmail e = false)
    (h2 : assocHas exMap e = true) :
    (importRow .keepFirst exMap st i item).newByEmail = st.newByEmail := by
  rw [hne] at hval
  have hb : (!(determineStatus (some e)).1) = false := by
    rw [hval]; rfl
  simp only [importRow, hne, Option.getD_some, hb, Bool.false_eq_true, if_false, h1, h2,
    if_true]

/-- Coverage: after the loop, the normalized email of every valid row of the
batch is either an existing-storage key or a key of the new-contact map. -/
theorem importFold_coverage (strat : DedupeStrategy) (exMap : List (String × StoredContact)) :
    ∀ (rows : List (Nat × ImportItem)) (st : ImportState),
      ∀ p ∈ rows, ∀ e, normEmail p.2.email = some e →
      (determineStatus (normEmail p.2.email)).1 = true →
      (assocHas exMap e = true
        ∨ assocHas (importFold strat exMap rows st).newByEmail e = true) := by
  intro rows
  induction rows with
  | nil => intro st p hp; cases hp
  | cons q rest ih =>
    intro st p hp e hne hval
    have hfold : importFold strat exMap (q :: rest) st
        = importFold strat exMap rest (importRow strat exMap st q.1 q.2) := by
      simp [importFold]
    rcases List.mem_cons.mp hp with rfl | hp'
    · by_cases h2 : assocHas exMap e = true
      · exact Or.inl h2
      · refine Or.inr ?_
        rw [hfold]
        apply importFold_newKeys
        by_cases h1 : assocHas st.newByEmail e = true
        · exact importRow_newKeys strat exMap st p.1 p.2 e h1
        · rw [importRow_new_branch strat exMap st p.1 p.2 e hne hval
            (by simpa using h1) (by simpa using h2)]
          rw [assocHas_iff_mem, List.map_append, List.mem_append]
          right
          simp
    · rw [hfold]
      exact ih (importRow strat exMap st q.1 q.2) p hp' e hne hval

/-- Second-run shape: under `keepFirst`, when every valid row's email is
already a storage key, the loop adds no new contact. -/
theorem importFold_noNew (exMap : List (String × StoredContact)) :
    ∀ (rows : List (Nat × ImportItem)) (st : ImportState),
      (∀ p ∈ rows, ∀ e, normEmail p.2.email = some e →
        (determineStatus (normEmail p.2.email)).1 = true → assocHas exMap e = true) →
      st.newByEmail = [] →
      (importFold .keepFirst exMap rows st).newByEmail = [] := by
  intro rows
  induction rows with
  | nil => intro st _ h; exact h
  | cons q rest ih =>
    intro st hcov hst
    rw [show importFold .keepFirst exMap (q :: rest) st
        = importFold .keepFirst exMap rest (importRow .keepFirst exMap st q.1 q.2) from by
      simp [importFold]]
    refine ih _ (fun p hp => hcov p (by simp [hp])) ?_
    by_cases hval : (determineStatus (normEmail q.2.email)).1 = true
    · cases hn : normEmail q.2.email with
      | none => rw [hn] at hval; simp [determineStatus] at hval
      | some e =>
        have hex : assocHas exMap e = true := hcov q (by simp) e hn hval
        rw [importRow_existing_keepFirst exMap st q.1 q.2 e hn hval (by rw [hst]; rfl) hex]
        exact hst
    · rw [importRow_invalid .keepFirst exMap st q.1 q.2 (by simpa using hval)]
      exact hst

/-- The in-place update of the seen-in-import branches preserves key/value
email coherence, provided the written value carries the written key as its
email. -/
theorem kv_email_map_update (m : List (String × StoredContact)) (email : String)
    (g : String × StoredContact → StoredContact)
    (h : ∀ kv ∈ m, kv.2.email = kv.1)
    (hg : ∀ kv, (g kv).email = email ∨ (g kv).email = kv.2.email) :
    ∀ kv ∈ m.map (fun kv => if kv.1 = email then (kv.1, g kv) else kv), kv.2.email = kv.1 := by
  intro kv hkv
  rcases List.mem_map.mp hkv with ⟨kv0, hkv0, hmap⟩
  by_cases hq : kv0.1 = email
  · rw [if_pos hq] at hmap
    subst hmap
    rcases hg kv0 with hc | hc
    · rw [hc, hq]
    · rw [hc]
      exact h kv0 hkv0
  · rw [if_neg hq] at hmap
    subst hmap
    exact h kv0 hkv0

/-- One import row preserves key/value email coherence of the new-contact
map. -/
theorem importRow_kv_email (strat : DedupeStrategy) (exMap : List (String × StoredContact))
    (st : ImportState) (i : Nat) (item : ImportItem)
    (h : ∀ kv ∈ st.newByEmail, kv.2.email = kv.1) :
    ∀ kv ∈ (importRow strat exMap st i item).newByEmail, kv.2.email = kv.1 := by
  cases strat <;>
    (simp only [importRow]
     split_ifs <;>
       first
       | exact h
       | exact kv_email_map_update st.newByEmail _ _ h (fun kv => Or.inl rfl)
       | exact kv_email_map_update st.newByEmail _ _ h (fun kv => Or.inr rfl)
       | (intro kv hkv
          rcases List.mem_append.mp hkv with hkv' | hkv'
          · exact h kv hkv'
          · rcases List.mem_singleton.mp hkv' with rfl
            rfl))

/-- Key/value coherence of the new-contact map: every entry's value carries
the entry's key as its email. -/
theorem importFold_kv_email (strat : DedupeStrategy) (exMap : List (String × StoredContact)) :
    ∀ (rows : List (Nat × ImportItem)) (st : ImportState),
      (∀ kv ∈ st.newByEmail, kv.2.email = kv.1) →
      ∀ kv ∈ (importFold strat exMap rows st).newByEmail, kv.2.email = kv.1 := by
  intro rows
  induction rows with
  | nil => intro st h; exact h
  | cons q rest ih =>
    intro st h
    rw [show importFold strat exMap (q :: rest) st
        = importFold strat exMap rest (importRow strat exMap st q.1 q.2) from by
      simp [importFold]]
    exact ih _ (importRow_kv_email strat exMap st q.1 q.2 h)

/-- Persisting an empty update batch changes nothing. -/
theorem applyUpdates_nil (storage : List StoredContact) :
    applyUpdates storage [] = storage := by
  unfold applyUpdates
  have : ∀ c ∈ storage,
      (match assocGet [] c.email with
        | some u => u
        | none => c) = c := by
    intro c _
    rfl
  rw [List.map_congr_left this]
  simp

/-! ## Claim C4 -/

/-- C4, counterexample: the claim's per-row accounting fails on the non-
`keepFirst` strategies.  With `keepLast` and an in-batch duplicate, the
duplicate row is neither imported, nor skipped, nor a discarded duplicate
(its data overwrites the first occurrence), so
`imported + skipped + duplicates-resolved-to-discard = 1 ≠ 2`; and with
`keepLast` against a storage collision the single row is counted in both
`duplicates` and (through the update batch) `imported`, so even
`imported + skipped + duplicates = 2 ≠ 1` — the row is not in exactly one
bucket. -/
theorem claim_C4_counterexample :
    ¬(((bulkImport [] [⟨some "a@x.com", none, none, none, none, none⟩,
            ⟨some "a@x.com", none, none, none, none, none⟩] .keepLast).1).imported
        + ((bulkImport [] [⟨some "a@x.com", none, none, none, none, none⟩,
            ⟨some "a@x.com", none, none, none, none, none⟩] .keepLast).1).skipped
        + ((bulkImport [] [⟨some "a@x.com", none, none, none, none, none⟩,
            ⟨some "a@x.com", none, none, none, none, none⟩] .keepLast).1).dupDiscarded
        = ([⟨some "a@x.com", none, none, none, none, none⟩,
            ⟨some "a@x.com", none, none, none, none, none⟩] : List ImportItem).length)
    ∧ ¬(((bulkImport [⟨"a@x.com", none, none, none, none, [], [], "valid", []⟩]
            [⟨some "a@x.com", none, none, none, none, none⟩] .keepLast).1).imported
        + ((bulkImport [⟨"a@x.com", none, none, none, none, [], [], "valid", []⟩]
            [⟨some "a@x.com", none, none, none, none, none⟩] .keepLast).1).skipped
        + ((bulkImport [⟨"a@x.com", none, none, none, none, [], [], "valid", []⟩]
            [⟨some "a@x.com", none, none, none, none, none⟩] .keepLast).1).duplicates
        = ([⟨some "a@x.com", none, none, none, none, none⟩] : List ImportItem).length) := by
  constructor <;> decide

/-- C4 (amended): every input row lands in at least one result bucket and the
counters obey `imported + skipped + duplicates = items.length + updatedCount`,
where `updatedCount` counts the rows that collided with existing storage
under `keepLast`/`merge` — those rows are double-counted, appearing both in
`duplicates` and (as updated records) in `imported`.  Under `keepFirst` no
update happens, every duplicate is resolved to discard, and the claim's exact
equation `imported + skipped + duplicates-resolved-to-discard = items.length`
holds. -/
theorem claim_C4_row_accounting (storage : List StoredContact) (items : List ImportItem)
    (strat : DedupeStrategy) :
    ((bulkImport storage items strat).1).imported
        + ((bulkImport storage items strat).1).skipped
        + ((bulkImport storage items strat).1).duplicates
      = items.length + ((bulkImport storage items strat).1).updatedCount
    ∧ (strat = .keepFirst →
        ((bulkImport storage items strat).1).updatedCount = 0
        ∧ ((bulkImport storage items strat).1).dupDiscarded
            = ((bulkImport storage items strat).1).duplicates
        ∧ ((bulkImport storage items strat).1).imported
            + ((bulkImport storage items strat).1).skipped
            + ((bulkImport storage items strat).1).dupDiscarded
          = items.length) := by
  by_cases h0 : items.length = 0
  · have : items = [] := List.length_eq_zero.mp h0
    subst this
    exact ⟨rfl, fun _ => ⟨rfl, rfl, rfl⟩⟩
  · have hc := importFold_counts strat (existingByEmail storage) items.enum
      ⟨0, 0, 0, [], [], [], []⟩
    have h1 := hc.1
    simp only [List.enum_length] at h1
    simp at h1
    unfold bulkImport
    rw [if_neg h0]
    dsimp only
    simp only [List.length_map]
    constructor
    · omega
    · intro hk
      have h2 := hc.2 hk
      have hupd : (importFold strat (existingByEmail storage) items.enum
          ⟨0, 0, 0, [], [], [], []⟩).updEmails = [] := h2.1
      have h3 := h2.2.2
      simp at h3
      rw [hupd]
      refine ⟨by simp, by omega, ?_⟩
      simp only [List.length_nil]
      omega

/-- Witness for `claim_C4_row_accounting`: a `keepFirst` batch with one new
row, one invalid row and one storage-colliding row over a one-contact
storage. -/
theorem claim_C4_witness :
    ((bulkImport [⟨"a@x.com", none, none, none, none, [], [], "valid", []⟩]
        [⟨some "b@x.com", none, none, none, none, none⟩,
          ⟨some "not-an-email", none, none, none, none, none⟩,
          ⟨some "a@x.com", none, none, none, none, none⟩] .keepFirst).1).updatedCount = 0
    ∧ ((bulkImport [⟨"a@x.com", none, none, none, none, [], [], "valid", []⟩]
        [⟨some "b@x.com", none, none, none, none, none⟩,
          ⟨some "not-an-email", none, none, none, none, none⟩,
          ⟨some "a@x.com", none, none, none, none, none⟩] .keepFirst).1).dupDiscarded
        = ((bulkImport [⟨"a@x.com", none, none, none, none, [], [], "valid", []⟩]
        [⟨some "b@x.com", none, none, none, none, none⟩,
          ⟨some "not-an-email", none, none, none, none, none⟩,
          ⟨some "a@x.com", none, none, none, none, none⟩] .keepFirst).1).duplicates
    ∧ ((bulkImport [⟨"a@x.com", none, none, none, none, [], [], "valid", []⟩]
        [⟨some "b@x.com", none, none, none, none, none⟩,
          ⟨some "not-an-email", none, none, none, none, none⟩,
          ⟨some "a@x.com", none, none, none, none, none⟩] .keepFirst).1).imported
        + ((bulkImport [⟨"a@x.com", none, none, none, none, [], [], "valid", []⟩]
        [⟨some "b@x.com", none, none, none, none, none⟩,
          ⟨some "not-an-email", none, none, none, none, none⟩,
          ⟨some "a@x.com", none, none, none, none, none⟩] .keepFirst).1).skipped
        + ((bulkImport [⟨"a@x.com", none, none, none, none, [], [], "valid", []⟩]
        [⟨some "b@x.com", none, none, none, none, none⟩,
          ⟨some "not-an-email", none, none, none, none, none⟩,
          ⟨some "a@x.com", none, none, none, none, none⟩] .keepFirst).1).dupDiscarded
        = 3 :=
  (claim_C4_row_accounting [⟨"a@x.com", none, none, none, none, [], [], "valid", []⟩]
    [⟨some "b@x.com", none, none, none, none, none⟩,
      ⟨some "not-an-email", none, none, none, none, none⟩,
      ⟨some "a@x.com", none, none, none, none, none⟩] .keepFirst).2 rfl

/-! ## Claim C9 -/

/-- Shape of a nonempty `keepFirst` import: no update is persisted, storage
grows by exactly the new contacts. -/
theorem bulkImport_snd_keepFirst (storage : List StoredContact) (items : List ImportItem)
    (h0 : items.length ≠ 0) :
    (bulkImport storage items .keepFirst).2
      = storage ++ ((importFold .keepFirst (existingByEmail storage) items.enum
          ⟨0, 0, 0, [], [], [], []⟩).newByEmail.map (fun kv => kv.2)) := by
  have hk := (importFold_counts .keepFirst (existingByEmail storage) items.enum
    ⟨0, 0, 0, [], [], [], []⟩).2 rfl
  have hupd : (importFold .keepFirst (existingByEmail storage) items.enum
      ⟨0, 0, 0, [], [], [], []⟩).updatesByEmail = [] := hk.2.1
  unfold bulkImport
  rw [if_neg h0]
  dsimp only
  rw [hupd, applyUpdates_nil]

/-- A `keepFirst` import whose loop records nothing to save or update writes
nothing: storage is returned unchanged and the saved-contacts list is
empty. -/
theorem bulkImport_no_write (storage2 : List StoredContact) (items : List ImportItem)
    (h0 : items.length ≠ 0)
    (hnoNew : (importFold .keepFirst (existingByEmail storage2) items.enum
        ⟨0, 0, 0, [], [], [], []⟩).newByEmail = [])
    (hupd : (importFold .keepFirst (existingByEmail storage2) items.enum
        ⟨0, 0, 0, [], [], [], []⟩).updatesByEmail = [])
    (hue : (importFold .keepFirst (existingByEmail storage2) items.enum
        ⟨0, 0, 0, [], [], [], []⟩).updEmails = []) :
    (bulkImport storage2 items .keepFirst).2 = storage2
    ∧ (bulkImport storage2 items .keepFirst).1.contacts = [] := by
  unfold bulkImport
  rw [if_neg h0]
  dsimp only
  rw [hupd, applyUpdates_nil, hnoNew, hue]
  simp

/-- C9: re-importing the same batch with `keepFirst` is idempotent — the
second import performs no write: it saves no contact and leaves storage
exactly as after the first import. -/
theorem claim_C9_keepFirst_idempotent (storage : List StoredContact)
    (items : List ImportItem) :
    (bulkImport (bulkImport storage items .keepFirst).2 items .keepFirst).2
      = (bulkImport storage items .keepFirst).2
    ∧ (bulkImport (bulkImport storage items .keepFirst).2 items .keepFirst).1.contacts
      = [] := by
  by_cases h0 : items.length = 0
  · have : items = [] := List.length_eq_zero.mp h0
    subst this
    exact ⟨rfl, rfl⟩
  · have hs1 := bulkImport_snd_keepFirst storage items h0
    have hkv : ∀ kv ∈ (importFold .keepFirst (existingByEmail storage) items.enum
        ⟨0, 0, 0, [], [], [], []⟩).newByEmail, kv.2.email = kv.1 := by
      apply importFold_kv_email
      intro kv hkv
      simp at hkv
    have hcov2 : ∀ p ∈ items.enum, ∀ e, normEmail p.2.email = some e →
        (determineStatus (normEmail p.2.email)).1 = true →
        assocHas (existingByEmail (bulkImport storage items .keepFirst).2) e = true := by
      intro p hp e hne hval
      rw [existingByEmail_keys, hs1, List.map_append, List.mem_append]
      rcases importFold_coverage .keepFirst (existingByEmail storage) items.enum
          ⟨0, 0, 0, [], [], [], []⟩ p hp e hne hval with h | h
      · left
        exact (existingByEmail_keys storage e).mp h
      · right
        rw [assocHas_iff_mem] at h
        rcases List.mem_map.mp h with ⟨kv, hkvm, hfst⟩
        rw [List.map_map]
        exact List.mem_map.mpr ⟨kv, hkvm, by rw [← hfst]; exact hkv kv hkvm⟩
    have hnoNew : (importFold .keepFirst
        (existingByEmail (bulkImport storage items .keepFirst).2) items.enum
        ⟨0, 0, 0, [], [], [], []⟩).newByEmail = [] :=
      importFold_noNew _ items.enum ⟨0, 0, 0, [], [], [], []⟩ hcov2 rfl
    have hk2 := (importFold_counts .keepFirst
      (existingByEmail (bulkImport storage items .keepFirst).2) items.enum
      ⟨0, 0, 0, [], [], [], []⟩).2 rfl
    have hupd2 : (importFold .keepFirst
        (existingByEmail (bulkImport storage items .keepFirst).2) items.enum
        ⟨0, 0, 0, [], [], [], []⟩).updatesByEmail = [] := hk2.2.1
    have hue2 : (importFold .keepFirst
        (existingByEmail (bulkImport storage items .keepFirst).2) items.enum
        ⟨0, 0, 0, [], [], [], []⟩).updEmails = [] := hk2.1
    exact bulkImport_no_write (bulkImport storage items .keepFirst).2 items h0
      hnoNew hupd2 hue2

end SAB
